import Mathlib

/-!
Verification of the Kagent Slack bot core (`src/slack_bot.py`, `src/config.py`).

The Python source is shallowly embedded below:

* `estimate_tokens`, `detect_cluster_from_message` — the module-level pure
  helpers (`slack_bot.py` lines 53-107).
* `ContextManager` — the per-thread / per-cluster conversation store
  (`slack_bot.py` lines 110-228).  The Python `dict` is modelled as an
  association list; the dynamically-typed entry (either a bare `ContextInfo`
  in single-cluster mode or a nested `dict` in multi-cluster mode) is the
  sum type `ThreadEntry`.  Operations that would raise a Python `TypeError`
  or `AttributeError` on a mode-mismatched entry return `none`.
* `KagentClient._parse_stream` — the SSE fold (`slack_bot.py` lines 400-526),
  modelled as structural recursion over a list of decoded events.
* `KagentClient.send_message` — the dispatch wrapper (`slack_bot.py` lines
  265-398); the HTTP layer is a `RemoteResult` oracle parameter, and the
  returned flag records whether the remote was contacted.

Python truthiness of optional strings (`if cluster:`, `if thread_id:`,
`if response_text:`) is modelled by `optTruthy`: `None` and `""` are falsy.
-/

/-- Python truthiness of an `Optional[str]`: `None` and the empty string are
falsy, every other string is truthy. -/
def optTruthy : Option String → Bool
  | none => false
  | some s => !s.isEmpty

/-- Lookup in a Python-`dict`-as-association-list (first binding wins). -/
def alookup {β : Type} (k : String) : List (String × β) → Option β
  | [] => none
  | (k', v) :: rest => if k' = k then some v else alookup k rest

/-- `d[k] = v` on a Python `dict`: replace the binding in place, or append. -/
def ainsert {β : Type} (k : String) (v : β) : List (String × β) → List (String × β)
  | [] => [(k, v)]
  | (k', v') :: rest => if k' = k then (k', v) :: rest else (k', v') :: ainsert k v rest

/-- `del d[k]` on a Python `dict`: remove every binding for `k` (a real
`dict` holds at most one). -/
def aerase {β : Type} (k : String) : List (String × β) → List (String × β)
  | [] => []
  | (k', v') :: rest => if k' = k then aerase k rest else (k', v') :: aerase k rest

/-- Number of bindings an association list holds for key `k`. -/
def keyCount {β : Type} (k : String) : List (String × β) → Nat
  | [] => 0
  | (k', _) :: rest => (if k' = k then 1 else 0) + keyCount k rest

/-- `estimate_tokens` (`slack_bot.py` lines 53-69): `0` for falsy text, else
`len(text) // 4`. -/
def estimate_tokens (text : String) : Nat :=
  if text.isEmpty then 0 else text.length / 4

/-- Python `str.lower()` for the ASCII inputs the bot handles, at the
character-list level. -/
def lowerChars (s : String) : List Char :=
  s.toList.map Char.toLower

/-- Python regex `\w` for the ASCII inputs the bot handles:
letters, digits and underscore. -/
def isWordChar (c : Char) : Bool :=
  c.isAlphanum || c == '_'

/-- Whether the character at index `i` of `msg` exists and is a word
character (out of range counts as non-word, as at the ends of a string). -/
def wordAtIdx (msg : List Char) (i : Nat) : Bool :=
  match msg.get? i with
  | some c => isWordChar c
  | none => false

/-- Python regex `\b` at position `i`: exactly one of the two adjacent
positions holds a word character. -/
def hasBoundary (msg : List Char) (i : Nat) : Bool :=
  (match i with
   | 0 => false
   | j + 1 => wordAtIdx msg j) != wordAtIdx msg i

/-- `pat` occurs literally at the head of `hay` (character prefix test). -/
def subAt : List Char → List Char → Bool
  | [], _ => true
  | _ :: _, [] => false
  | a :: as, b :: bs => a == b && subAt as bs

/-- Python `needle in hay` (substring containment). -/
def hasSub (needle : List Char) : List Char → Bool
  | [] => subAt needle []
  | b :: bs => subAt needle (b :: bs) || hasSub needle bs

/-- `re.search(r'\b' + re.escape(pat) + r'\b', msg)` succeeds: the literal
`pat` occurs at some position of `msg` that is flanked by word boundaries. -/
def matchWordAt (pat msg : List Char) (i : Nat) : Bool :=
  subAt pat (msg.drop i) && hasBoundary msg i && hasBoundary msg (i + pat.length)

/-- Whole-word search over every start position of the message. -/
def reWordSearch (pat msg : List Char) : Bool :=
  (List.range (msg.length + 1)).any (fun i => matchWordAt pat msg i)

/-- `ClusterConfig` (`config.py` lines 23-28). -/
structure ClusterConfig where
  name : String
  base_url : String
  aliases : List String
deriving DecidableEq

/-- Whether the cluster's (lowercased) name matches the lowercased message
as a whole word — the per-cluster test of the first loop of
`detect_cluster_from_message` (`slack_bot.py` lines 92-96). -/
def nameMatches (message_lower : List Char) (c : ClusterConfig) : Bool :=
  reWordSearch (lowerChars c.name) message_lower

/-- Whether some alias of the cluster matches the lowercased message as a
whole word — the per-cluster test of the second loop
(`slack_bot.py` lines 99-104). -/
def aliasMatches (message_lower : List Char) (c : ClusterConfig) : Bool :=
  c.aliases.any (fun a => reWordSearch (lowerChars a) message_lower)

/-- `detect_cluster_from_message` (`slack_bot.py` lines 72-107): lowercase
the message, return the first cluster in list order whose name matches as a
whole word; otherwise the first cluster in list order with a matching alias;
otherwise `none`. -/
def detect_cluster_from_message (message : String) (clusters : List ClusterConfig) :
    Option String :=
  let message_lower := lowerChars message
  match clusters.find? (fun c => nameMatches message_lower c) with
  | some c => some c.name
  | none =>
    clusters.findSome? (fun c =>
      if aliasMatches message_lower c then some c.name else none)

/-- Follows the spec's words, for comparison with the source function: the
first whole-word match found in left-to-right scan order of the message is
returned, cluster names being tried before aliases (spec section 4.4 and
claim C2).  At each message position the names of all clusters are tried,
then the aliases. -/
def detect_cluster_spec_leftmost (message : String) (clusters : List ClusterConfig) :
    Option String :=
  let message_lower := lowerChars message
  match (List.range (message_lower.length + 1)).findSome? (fun i =>
      clusters.findSome? (fun c =>
        if matchWordAt (lowerChars c.name) message_lower i then some c.name else none)) with
  | some n => some n
  | none =>
    (List.range (message_lower.length + 1)).findSome? (fun i =>
      clusters.findSome? (fun c =>
        if c.aliases.any (fun a => matchWordAt (lowerChars a) message_lower i)
        then some c.name else none))

/-- `ContextInfo` (`slack_bot.py` lines 44-50). -/
structure ContextInfo where
  context_id : String
  cluster : Option String
  message_count : Nat
  estimated_tokens : Nat
deriving DecidableEq

/-- One value of `ContextManager.contexts`: a bare `ContextInfo` in
single-cluster mode, or a nested `{cluster: ContextInfo}` dict in
multi-cluster mode (`slack_bot.py` lines 126-128). -/
inductive ThreadEntry where
  | single (info : ContextInfo)
  | multi (clusters : List (String × ContextInfo))
deriving DecidableEq

/-- `ContextManager.contexts`: `{thread_id: entry}`. -/
abbrev ContextMap := List (String × ThreadEntry)

/-- `ContextManager.get_context` (`slack_bot.py` lines 130-144). -/
def get_context (m : ContextMap) (thread_id : String) (cluster : Option String) :
    Option ContextInfo :=
  match alookup thread_id m with
  | none => none
  | some entry =>
    if optTruthy cluster then
      match entry with
      | .multi mm => alookup (cluster.getD "") mm
      | .single _ => none
    else
      match entry with
      | .single info => some info
      | .multi _ => none

/-- The token estimate one exchange adds (`slack_bot.py` lines 159-162):
`estimate_tokens(message_text)` plus, when `response_text` is truthy,
`estimate_tokens(response_text)`. -/
def exchange_tokens (message_text : String) (response_text : Option String) : Nat :=
  estimate_tokens message_text +
    (if optTruthy response_text then estimate_tokens (response_text.getD "") else 0)

/-- `ContextManager.set_context` (`slack_bot.py` lines 146-196).  Returns
`none` exactly where the Python would raise on a mode-mismatched entry
(`cluster in info` on a bare `ContextInfo`, or `info.message_count` on a
nested dict). -/
def set_context (m : ContextMap) (thread_id context_id message_text : String)
    (response_text : Option String) (cluster : Option String) : Option ContextMap :=
  let tokens := exchange_tokens message_text response_text
  if optTruthy cluster then
    let c := cluster.getD ""
    match alookup thread_id m with
    | none =>
      some (ainsert thread_id (.multi [(c, ⟨context_id, cluster, 1, tokens⟩)]) m)
    | some (.multi mm) =>
      match alookup c mm with
      | some info =>
        some (ainsert thread_id
          (.multi (ainsert c
            { info with
              message_count := info.message_count + 1
              estimated_tokens := info.estimated_tokens + tokens } mm)) m)
      | none =>
        some (ainsert thread_id (.multi (ainsert c ⟨context_id, cluster, 1, tokens⟩ mm)) m)
    | some (.single _) => none
  else
    match alookup thread_id m with
    | some (.single info) =>
      some (ainsert thread_id
        (.single { info with
          message_count := info.message_count + 1
          estimated_tokens := info.estimated_tokens + tokens }) m)
    | some (.multi _) => none
    | none =>
      some (ainsert thread_id (.single ⟨context_id, none, 1, tokens⟩) m)

/-- `ContextManager.clear_context` (`slack_bot.py` lines 198-211): with a
truthy cluster and a nested entry, delete only that cluster's binding (if
present); otherwise delete the whole thread entry. -/
def clear_context (m : ContextMap) (thread_id : String) (cluster : Option String) :
    ContextMap :=
  match alookup thread_id m with
  | none => m
  | some entry =>
    if optTruthy cluster then
      match entry with
      | .multi mm =>
        if (alookup (cluster.getD "") mm).isSome then
          ainsert thread_id (.multi (aerase (cluster.getD "") mm)) m
        else m
      | .single _ => aerase thread_id m
    else aerase thread_id m

/-- `ContextManager.check_token_limit` (`slack_bot.py` lines 213-228):
`(False, None)` for an absent entry, else
`(estimated_tokens > max_tokens, estimated_tokens)`. -/
def check_token_limit (m : ContextMap) (max_tokens : Nat) (thread_id : String)
    (cluster : Option String) : Bool × Option Nat :=
  match get_context m thread_id cluster with
  | none => (false, none)
  | some info => (decide (info.estimated_tokens > max_tokens), some info.estimated_tokens)

/-- One call to `set_context` as made by `_parse_stream` line 517: the
context id supplied by the remote plus the two texts of the exchange. -/
structure Exchange where
  context_id : String
  message_text : String
  response_text : Option String
deriving DecidableEq

/-- Iterate `set_context` for one `(thread_id, cluster)` key over a list of
exchanges, propagating the exceptional `none`. -/
def applyUpdates (thread_id : String) (cluster : Option String) (m : ContextMap) :
    List Exchange → Option ContextMap
  | [] => some m
  | x :: rest =>
    match set_context m thread_id x.context_id x.message_text x.response_text cluster with
    | some m' => applyUpdates thread_id cluster m' rest
    | none => none

/-- Sum of the token estimates the exchanges add. -/
def sumTokens (xs : List Exchange) : Nat :=
  (xs.map (fun x => exchange_tokens x.message_text x.response_text)).sum

/-- Total character count of the accumulated text (request plus response)
of a list of exchanges. -/
def totalTextLength (xs : List Exchange) : Nat :=
  (xs.map (fun x =>
    x.message_text.length +
      (match x.response_text with
       | some r => r.length
       | none => 0))).sum

/-- A text part of an A2A message: `parts[i]` with its optional `text`
field (`parts[0].get('text', '')`, `slack_bot.py` line 498). -/
structure TextPart where
  text : Option String
deriving DecidableEq

/-- `status.message`: optional `role` and a list of parts
(`slack_bot.py` lines 493-498). -/
structure StatusMessage where
  role : Option String
  parts : List TextPart
deriving DecidableEq

/-- `result.status`: optional `state` and optional `message`
(`slack_bot.py` lines 488-493). -/
structure TaskStatus where
  state : Option String
  message : Option StatusMessage
deriving DecidableEq

/-- The `result` body of a decoded event: optional `contextId`, optional
`status`, and the truthiness of its `final` flag
(`slack_bot.py` lines 483-504). -/
structure EventResult where
  contextId : Option String
  status : Option TaskStatus
  final : Bool
deriving DecidableEq

/-- A JSON-RPC `error` object: `error.get('message', 'Unknown error')` and
`error.get('code', '')` (`slack_bot.py` lines 433-435). -/
structure RpcError where
  message : Option String
  code : Option Int
deriving DecidableEq

/-- A decoded JSON-RPC response: an optional `error` object, and the
`result` body.  `result = none` covers both an absent `result` key and an
empty `result` dict — `json_rpc_response.get('result', {})` followed by the
falsy check at line 475 treats the two identically, and an event whose body
has no `contextId`, no `status` and a falsy `final` behaves the same as a
skipped one. -/
structure JsonRpcResponse where
  error : Option RpcError
  result : Option EventResult
deriving DecidableEq

/-- One SSE event as `_parse_stream` distinguishes them
(`slack_bot.py` lines 422-429, 506-511): a payload that is empty or
whitespace-only (skipped before counting), a non-blank payload that fails
`json.loads` (counted and skipped), or a successfully decoded JSON-RPC
response. -/
inductive SSEEvent where
  | blank
  | malformed
  | rpc (r : JsonRpcResponse)
deriving DecidableEq

/-- The keyword list of the token-limit detector (`slack_bot.py`
lines 440-443). -/
def token_limit_keywords : List String :=
  ["rate_limit_exceeded", "request too large", "token", "tpm", "tokens per min"]

/-- The token-limit test `any(keyword in str(error).lower() for keyword in
[...])` (`slack_bot.py` lines 440-443).  `str(error)` is the repr of the
decoded error dict `{message, code}`; its own syntax (keys `'message'`,
`'code'`, quotes, braces) contains none of the keywords, the repr of the
numeric `code` is all digits, and repr escaping can neither create nor
destroy an occurrence of the purely alphanumeric-and-space keywords, so the
scan reduces to scanning the lowercased message value. -/
def is_token_limit_error (e : RpcError) : Bool :=
  token_limit_keywords.any (fun k => hasSub k.toList (lowerChars (e.message.getD "")))

/-- The token-limit reply template (`slack_bot.py` lines 449-459) with the
error message interpolated. -/
def token_limit_response (error_msg : String) : String :=
  "⚠️ **AI Token Limit Exceeded**\n\n" ++
  "The conversation context has grown too large for the AI to process.\n\n" ++
  "**What happened:**\n" ++
  "• " ++ error_msg ++ "\n\n" ++
  "**To continue:**\n" ++
  "• I\x27ve cleared the context for you - your next message will start fresh\n" ++
  "• Break large requests into smaller, focused questions\n" ++
  "• Avoid asking for extensive outputs (e.g., all logs, all pods)\n\n" ++
  "💡 *Tip: Start a new thread for a completely fresh conversation*"

/-- The generic agent-error reply (`slack_bot.py` line 467). -/
def agent_error_response (error_msg : String) : String :=
  "❌ Agent error: " ++ error_msg

/-- The result dict of one remote exchange (`slack_bot.py` lines 521-526):
keys `response`, `status`, `contextId`, `cluster`. -/
structure TaskOutcome where
  response : Option String
  status : String
  contextId : Option String
  cluster : Option String
deriving DecidableEq

/-- The mutable locals of the `_parse_stream` event loop
(`slack_bot.py` lines 415-418). -/
structure ParseState where
  agent_response : Option String
  context_id : Option String
  status : String
  event_count : Nat
deriving DecidableEq

/-- Store a present `contextId` field (`slack_bot.py` lines 484-485). -/
def apply_ctx (st : ParseState) (d : EventResult) : ParseState :=
  match d.contextId with
  | some cid => { st with context_id := some cid }
  | none => st

/-- Apply a present `status` field (`slack_bot.py` lines 488-499): fold
`status.state` into the running status (an absent state keeps the old
value) and take the first part's text of an agent-role message with
non-empty parts as the response candidate. -/
def apply_status (st : ParseState) (s : TaskStatus) : ParseState :=
  let st2 := { st with status := s.state.getD st.status }
  match s.message with
  | none => st2
  | some msg =>
    if msg.role == some "agent" then
      match msg.parts with
      | [] => st2
      | p :: _ => { st2 with agent_response := some (p.text.getD "") }
    else st2

/-- Apply one truthy `result` body to the loop state
(`slack_bot.py` lines 483-499): the `contextId` store followed, when a
`status` field is present, by the status fold. -/
def apply_result (st : ParseState) (d : EventResult) : ParseState :=
  match d.status with
  | none => apply_ctx st d
  | some s => apply_status (apply_ctx st d) s

/-- The event loop of `_parse_stream` (`slack_bot.py` lines 422-511).
`Sum.inl` is an early `return` from inside the loop (remote-reported
error), `Sum.inr` is the state at normal loop exit (`break` on a final
event, or stream end).  The context map only changes in the token-limit
branch, which clears the stored context (lines 445-446). -/
def parse_loop (thread_id cluster : Option String) (m : ContextMap)
    (st : ParseState) : List SSEEvent → ContextMap × (TaskOutcome ⊕ ParseState)
  | [] => (m, .inr st)
  | .blank :: rest => parse_loop thread_id cluster m st rest
  | .malformed :: rest =>
    parse_loop thread_id cluster m { st with event_count := st.event_count + 1 } rest
  | .rpc r :: rest =>
    let st1 := { st with event_count := st.event_count + 1 }
    match r.error with
    | some err =>
      let error_msg := err.message.getD "Unknown error"
      if is_token_limit_error err then
        let m' := if optTruthy thread_id then clear_context m (thread_id.getD "") cluster else m
        (m', .inl ⟨some (token_limit_response error_msg), "token_limit", none, cluster⟩)
      else
        (m, .inl ⟨some (agent_error_response error_msg), "error", st1.context_id, cluster⟩)
    | none =>
      match r.result with
      | none => parse_loop thread_id cluster m st1 rest
      | some d =>
        let st2 := apply_result st1 d
        if d.final then (m, .inr st2)
        else parse_loop thread_id cluster m st2 rest

/-- `KagentClient._parse_stream` (`slack_bot.py` lines 400-526): run the
event loop from the initial state (`agent_response = None`,
`context_id = None`, `status = "unknown"`), then, when both the thread id
and the captured context id are truthy, record the exchange via
`set_context` (lines 516-519).  `none` is the propagated exception of a
mode-mismatched `set_context`. -/
def parse_stream (m : ContextMap) (events : List SSEEvent) (thread_id : Option String)
    (message_text : String) (cluster : Option String) :
    Option (ContextMap × TaskOutcome) :=
  match parse_loop thread_id cluster m ⟨none, none, "unknown", 0⟩ events with
  | (m', .inl out) => some (m', out)
  | (m', .inr st) =>
    if optTruthy thread_id && optTruthy st.context_id then
      match set_context m' (thread_id.getD "") (st.context_id.getD "")
          message_text st.agent_response cluster with
      | some m'' => some (m'', ⟨st.agent_response, st.status, st.context_id, cluster⟩)
      | none => none
    else some (m', ⟨st.agent_response, st.status, st.context_id, cluster⟩)

/-- Helper for Python `{n:,}` formatting: comma-group the reversed digit
list in threes. -/
def commaGroupRev : List Char → List Char
  | a :: b :: c :: d :: rest => a :: b :: c :: ',' :: commaGroupRev (d :: rest)
  | l => l

/-- Python `f"{n:,}"`: decimal digits with thousands separators. -/
def commaFmt (n : Nat) : String :=
  String.mk (commaGroupRev (toString n).toList.reverse).reverse

/-- The fields of `BotConfig` (`config.py` lines 31-68) that the modelled
functions read.  `single_cluster_endpoint` stands for the computed property
of a validated single-cluster configuration. -/
structure BotConfig where
  multi_cluster_enabled : Bool
  clusters : List ClusterConfig
  default_cluster : Option String
  single_cluster_endpoint : String
  max_context_tokens : Nat
  request_timeout : Nat
deriving DecidableEq

/-- `KagentClient._get_endpoint` (`slack_bot.py` lines 253-263). -/
def get_endpoint (cfg : BotConfig) (cluster : Option String) : String :=
  if cfg.multi_cluster_enabled then
    let target_cluster := if optTruthy cluster then cluster else cfg.default_cluster
    match cfg.clusters.find? (fun c => target_cluster == some c.name) with
    | some c => c.base_url
    | none =>
      match cfg.clusters with
      | c :: _ => c.base_url
      | [] => ""
  else cfg.single_cluster_endpoint

/-- What the HTTP layer hands back for one streaming POST: the decoded SSE
events, a timeout, or a transport failure (`slack_bot.py` lines 360-398). -/
inductive RemoteResult where
  | ok (events : List SSEEvent)
  | timeout
  | connError (error_str : String)
deriving DecidableEq

/-- The context-overflow reply template (`slack_bot.py` lines 288-296). -/
def context_overflow_response (tokens max_tokens : Nat) : String :=
  "⚠️ **Conversation Context Too Large**\n\n" ++
  "This conversation has accumulated approximately **" ++ commaFmt tokens ++
  " tokens**, which exceeds the safe limit of " ++ commaFmt max_tokens ++
  " tokens.\n\n" ++
  "**To continue:**\n" ++
  "• Start a new Slack thread, OR\n" ++
  "• Say: `@kagent reset context`\n\n" ++
  "💡 *Tip: Break large requests into smaller, focused questions*"

/-- The timeout reply (`slack_bot.py` line 386). -/
def timeout_response : String :=
  "⏱️ Request timed out. Please try breaking your request into smaller questions."

/-- The transport-failure reply (`slack_bot.py` line 394). -/
def conn_error_response (error_str : String) : String :=
  "❌ Failed to connect to Kagent: " ++ error_str

/-- `KagentClient.send_message` (`slack_bot.py` lines 265-398): when a
truthy thread id's stored context is over the token budget, return the
context-overflow outcome without contacting the remote (lines 283-300);
otherwise resolve the target cluster (detection only when no cluster was
passed, lines 302-312), contact the remote, and either parse the stream or
map a timeout / transport failure to its outcome.  The second component
records whether the remote was contacted; `none` in the first is a
propagated store exception. -/
def send_message (cfg : BotConfig) (m : ContextMap) (remote : RemoteResult)
    (text : String) (thread_id : Option String) (cluster : Option String) :
    Option (ContextMap × TaskOutcome) × Bool :=
  let over_check : Option Nat :=
    if optTruthy thread_id then
      let r := check_token_limit m cfg.max_context_tokens (thread_id.getD "") cluster
      if r.1 then some (r.2.getD 0) else none
    else none
  match over_check with
  | some tokens =>
    (some (m, ⟨some (context_overflow_response tokens cfg.max_context_tokens),
      "context_overflow", none, cluster⟩), false)
  | none =>
    let target_cluster : Option String :=
      if cfg.multi_cluster_enabled then
        let cluster' := if optTruthy cluster then cluster
          else detect_cluster_from_message text cfg.clusters
        if optTruthy cluster' then cluster' else cfg.default_cluster
      else none
    match remote with
    | .timeout =>
      (some (m, ⟨some timeout_response, "timeout", none, target_cluster⟩), true)
    | .connError e =>
      (some (m, ⟨some (conn_error_response e), "error", none, target_cluster⟩), true)
    | .ok events =>
      (parse_stream m events thread_id text target_cluster, true)

theorem alookup_ainsert_self {β : Type} (k : String) (v : β) (m : List (String × β)) :
    alookup k (ainsert k v m) = some v := by
  induction m with
  | nil => simp [ainsert, alookup]
  | cons p rest ih =>
    obtain ⟨k', v'⟩ := p
    by_cases h : k' = k
    · simp [ainsert, alookup, h]
    · simp [ainsert, alookup, h, ih]

theorem alookup_ainsert_ne {β : Type} {k k' : String} (v : β) (m : List (String × β))
    (h : k' ≠ k) : alookup k' (ainsert k v m) = alookup k' m := by
  induction m with
  | nil => simp [ainsert, alookup, Ne.symm h]
  | cons p rest ih =>
    obtain ⟨k'', v''⟩ := p
    by_cases hk : k'' = k
    · subst hk
      simp [ainsert, alookup, Ne.symm h]
    · simp only [ainsert, if_neg hk]
      by_cases hk' : k'' = k'
      · simp [alookup, hk']
      · simp [alookup, hk', ih]

theorem alookup_aerase {β : Type} (k k' : String) (m : List (String × β)) :
    alookup k' (aerase k m) = if k' = k then none else alookup k' m := by
  induction m with
  | nil => simp [aerase, alookup]
  | cons p rest ih =>
    obtain ⟨k'', v''⟩ := p
    by_cases hk : k'' = k
    · subst hk
      rw [aerase, if_pos rfl, ih]
      by_cases hk' : k' = k''
      · simp [hk']
      · simp [alookup, hk', Ne.symm hk']
    · rw [aerase, if_neg hk]
      by_cases hk' : k' = k''
      · subst hk'
        simp [alookup, ih, hk]
      · simp [alookup, Ne.symm hk', ih]

theorem alookup_mem {β : Type} {k : String} {v : β} {m : List (String × β)}
    (h : alookup k m = some v) : (k, v) ∈ m := by
  induction m with
  | nil => simp [alookup] at h
  | cons p rest ih =>
    obtain ⟨k', v'⟩ := p
    by_cases hk : k' = k
    · subst hk
      simp [alookup] at h
      simp [h]
    · simp [alookup, hk] at h
      exact List.mem_cons_of_mem _ (ih h)

theorem alookup_none_keyCount {β : Type} {k : String} {m : List (String × β)}
    (h : alookup k m = none) : keyCount k m = 0 := by
  induction m with
  | nil => simp [keyCount]
  | cons p rest ih =>
    obtain ⟨k', v'⟩ := p
    by_cases hk : k' = k
    · simp [alookup, hk] at h
    · simp [alookup, hk] at h
      simp [keyCount, hk, ih h]

theorem keyCount_ainsert_self {β : Type} {k : String} (v : β) {m : List (String × β)}
    (h : keyCount k m ≤ 1) : keyCount k (ainsert k v m) = 1 := by
  induction m with
  | nil => simp [ainsert, keyCount]
  | cons p rest ih =>
    obtain ⟨k', v'⟩ := p
    by_cases hk : k' = k
    · subst hk
      simp [keyCount] at h
      simp [ainsert, keyCount, h]
    · simp [keyCount, hk] at h
      simp [ainsert, keyCount, hk, ih h]

theorem keyCount_ainsert_ne {β : Type} {k k' : String} (v : β) (m : List (String × β))
    (h : k' ≠ k) : keyCount k' (ainsert k v m) = keyCount k' m := by
  induction m with
  | nil => simp [ainsert, keyCount, Ne.symm h]
  | cons p rest ih =>
    obtain ⟨k'', v''⟩ := p
    by_cases hk : k'' = k
    · subst hk
      simp [ainsert, keyCount]
    · simp [ainsert, keyCount, hk, ih]

/-- After `clear_context`, the `(thread_id, cluster)` key holds no stored
context, whatever the store looked like before. -/
theorem get_context_clear (m : ContextMap) (thread_id : String) (cluster : Option String) :
    get_context (clear_context m thread_id cluster) thread_id cluster = none := by
  unfold clear_context
  cases he : alookup thread_id m with
  | none => simp [get_context, he]
  | some entry =>
    by_cases hc : optTruthy cluster
    · cases entry with
      | multi mm =>
        simp only [hc, if_true]
        cases hi : alookup (cluster.getD "") mm with
        | none => simp [hi, get_context, he, hc]
        | some x => simp [hi, get_context, alookup_ainsert_self, hc, alookup_aerase]
      | single info =>
        simp [hc, get_context, alookup_aerase]
    · cases entry with
      | multi mm => simp [hc, get_context, alookup_aerase]
      | single info => simp [hc, get_context, alookup_aerase]

/-- Whether a stored entry has the shape the given mode (truthy cluster or
not) expects. -/
def entryModeOk (cluster : Option String) : ThreadEntry → Bool
  | .single _ => !(optTruthy cluster)
  | .multi _ => optTruthy cluster

/-- Every entry of the store has the shape the mode expects — true of every
store an actual run builds, since a run passes either always a truthy
cluster (multi-cluster mode) or always a falsy one (single-cluster mode). -/
def storeModeOk (m : ContextMap) (cluster : Option String) : Bool :=
  m.all (fun p => entryModeOk cluster p.2)

theorem storeModeOk_entry {m : ContextMap} {cluster : Option String} {t : String}
    {e : ThreadEntry} (hm : storeModeOk m cluster = true) (he : alookup t m = some e) :
    entryModeOk cluster e = true := by
  have hmem := alookup_mem he
  exact List.all_eq_true.mp hm _ hmem

/-- The `(thread_id, cluster)` key is absent in a way `set_context` can
create: either the thread is new, or the thread's nested dict lacks the
cluster. -/
def keyAbsentOk (m : ContextMap) (thread_id : String) (cluster : Option String) : Prop :=
  if optTruthy cluster then
    alookup thread_id m = none ∨
      ∃ mm, alookup thread_id m = some (.multi mm) ∧ alookup (cluster.getD "") mm = none
  else alookup thread_id m = none

theorem storeModeOk_absent {m : ContextMap} {cluster : Option String} {t : String}
    (hm : storeModeOk m cluster = true) (hg : get_context m t cluster = none) :
    keyAbsentOk m t cluster := by
  unfold keyAbsentOk
  by_cases hc : optTruthy cluster
  · simp only [hc, if_true]
    cases he : alookup t m with
    | none => exact Or.inl rfl
    | some entry =>
      cases entry with
      | multi mm =>
        refine Or.inr ⟨mm, rfl, ?_⟩
        simpa [get_context, he, hc] using hg
      | single info =>
        have := storeModeOk_entry hm he
        simp [entryModeOk, hc] at this
  · simp only [hc, if_false]
    cases he : alookup t m with
    | none => rfl
    | some entry =>
      cases entry with
      | multi mm =>
        have := storeModeOk_entry hm he
        simp [entryModeOk, hc] at this
      | single info =>
        simp [get_context, he, hc] at hg

/-- Updating an existing `(thread_id, cluster)` entry succeeds, increments
the message count, adds the exchange's token estimate, and keeps the stored
context id and cluster fields unchanged — even when the update supplies a
different context id (`slack_bot.py` lines 169-173 and 184-188).  The key
keeps exactly one binding if it had exactly one. -/
theorem set_context_existing {m : ContextMap} {t : String} {cluster : Option String}
    {info : ContextInfo} (cid msg : String) (rsp : Option String)
    (hg : get_context m t cluster = some info) :
    ∃ m', set_context m t cid msg rsp cluster = some m' ∧
      get_context m' t cluster =
        some ⟨info.context_id, info.cluster, info.message_count + 1,
          info.estimated_tokens + exchange_tokens msg rsp⟩ ∧
      (keyCount t m ≤ 1 → keyCount t m' = 1) ∧
      (∀ mm, alookup t m = some (.multi mm) →
        ∃ mm', alookup t m' = some (.multi mm') ∧
          (keyCount (cluster.getD "") mm ≤ 1 → keyCount (cluster.getD "") mm' = 1)) ∧
      (∀ i, alookup t m = some (.single i) → ∃ i', alookup t m' = some (.single i')) := by
  by_cases hc : optTruthy cluster
  · cases he : alookup t m with
    | none => simp [get_context, he] at hg
    | some entry =>
      cases entry with
      | single i => simp [get_context, he, hc] at hg
      | multi mm =>
        have hi : alookup (cluster.getD "") mm = some info := by
          simpa [get_context, he, hc] using hg
        have hset : set_context m t cid msg rsp cluster =
            some (ainsert t
              (.multi (ainsert (cluster.getD "")
                ⟨info.context_id, info.cluster, info.message_count + 1,
                  info.estimated_tokens + exchange_tokens msg rsp⟩ mm)) m) := by
          simp [set_context, hc, he, hi]
        refine ⟨_, hset, ?_, ?_, ?_, ?_⟩
        · simp [get_context, alookup_ainsert_self, hc]
        · intro hcnt
          exact keyCount_ainsert_self _ hcnt
        · intro mm0 hmm0
          obtain rfl : mm = mm0 := by simpa using hmm0
          exact ⟨_, alookup_ainsert_self _ _ _, fun h => keyCount_ainsert_self _ h⟩
        · intro i0 hi0
          simp at hi0
  · cases he : alookup t m with
    | none => simp [get_context, he] at hg
    | some entry =>
      cases entry with
      | multi mm => simp [get_context, he, hc] at hg
      | single i =>
        have hi : i = info := by simpa [get_context, he, hc] using hg
        subst hi
        have hset : set_context m t cid msg rsp cluster =
            some (ainsert t
              (.single ⟨i.context_id, i.cluster, i.message_count + 1,
                i.estimated_tokens + exchange_tokens msg rsp⟩) m) := by
          simp [set_context, hc, he]
        refine ⟨_, hset, ?_, ?_, ?_, ?_⟩
        · simp [get_context, alookup_ainsert_self, hc]
        · intro hcnt
          exact keyCount_ainsert_self _ hcnt
        · intro mm0 hmm0
          simp at hmm0
        · intro i0 hi0
          exact ⟨_, alookup_ainsert_self _ _ _⟩

/-- Creating a fresh `(thread_id, cluster)` entry succeeds and stores the
supplied context id with message count `1` and the exchange's token
estimate (`slack_bot.py` lines 174-181 and 189-196). -/
theorem set_context_fresh {m : ContextMap} {t : String} {cluster : Option String}
    (cid msg : String) (rsp : Option String) (habs : keyAbsentOk m t cluster) :
    ∃ m', set_context m t cid msg rsp cluster = some m' ∧
      get_context m' t cluster =
        some ⟨cid, (if optTruthy cluster then cluster else none), 1,
          exchange_tokens msg rsp⟩ ∧
      (keyCount t m ≤ 1 → keyCount t m' = 1) ∧
      (optTruthy cluster = true →
        ∃ mm', alookup t m' = some (.multi mm') ∧ keyCount (cluster.getD "") mm' = 1) ∧
      (optTruthy cluster = false → ∃ i', alookup t m' = some (.single i')) := by
  unfold keyAbsentOk at habs
  by_cases hc : optTruthy cluster
  · simp only [hc, if_true] at habs ⊢
    rcases habs with he | ⟨mm, he, hin⟩
    · have hset : set_context m t cid msg rsp cluster =
          some (ainsert t (.multi [(cluster.getD "",
            ⟨cid, cluster, 1, exchange_tokens msg rsp⟩)]) m) := by
        simp [set_context, hc, he]
      refine ⟨_, hset, ?_, ?_, ?_, ?_⟩
      · simp [get_context, alookup_ainsert_self, hc, alookup]
      · intro hcnt
        exact keyCount_ainsert_self _ hcnt
      · intro _
        exact ⟨_, alookup_ainsert_self _ _ _, by simp [keyCount]⟩
      · intro h
        simp at h
    · have hset : set_context m t cid msg rsp cluster =
          some (ainsert t (.multi (ainsert (cluster.getD "")
            ⟨cid, cluster, 1, exchange_tokens msg rsp⟩ mm)) m) := by
        simp [set_context, hc, he, hin]
      refine ⟨_, hset, ?_, ?_, ?_, ?_⟩
      · simp [get_context, alookup_ainsert_self, hc]
      · intro hcnt
        exact keyCount_ainsert_self _ hcnt
      · intro _
        refine ⟨_, alookup_ainsert_self _ _ _, ?_⟩
        exact keyCount_ainsert_self _ (by simp [alookup_none_keyCount hin])
      · intro h
        simp at h
  · have hc' : optTruthy cluster = false := by simpa using hc
    simp only [hc'] at habs
    simp only [Bool.false_eq_true, if_false] at habs
    have hset : set_context m t cid msg rsp cluster =
        some (ainsert t (.single ⟨cid, none, 1, exchange_tokens msg rsp⟩) m) := by
      simp [set_context, hc', habs]
    refine ⟨_, hset, ?_, ?_, ?_, ?_⟩
    · simp [get_context, alookup_ainsert_self, hc']
    · intro hcnt
      exact keyCount_ainsert_self _ hcnt
    · intro h
      simp [hc] at h
    · intro _
      exact ⟨_, alookup_ainsert_self _ _ _⟩


theorem sumTokens_cons (x : Exchange) (xs : List Exchange) :
    sumTokens (x :: xs) = exchange_tokens x.message_text x.response_text + sumTokens xs := by
  simp [sumTokens]

/-- Split a successful `get_context` by mode: a truthy cluster means a
nested entry holding the info, a falsy one a bare entry. -/
theorem get_context_shape {m : ContextMap} {t : String} {cluster : Option String}
    {info : ContextInfo} (hg : get_context m t cluster = some info) :
    (optTruthy cluster = true →
      ∃ mm, alookup t m = some (.multi mm) ∧ alookup (cluster.getD "") mm = some info) ∧
    (optTruthy cluster = false → alookup t m = some (.single info)) := by
  constructor
  · intro hc
    cases he : alookup t m with
    | none => simp [get_context, he] at hg
    | some entry =>
      cases entry with
      | single i => simp [get_context, he, hc] at hg
      | multi mm => exact ⟨mm, rfl, by simpa [get_context, he, hc] using hg⟩
  · intro hc
    cases he : alookup t m with
    | none => simp [get_context, he] at hg
    | some entry =>
      cases entry with
      | multi mm => simp [get_context, he, hc] at hg
      | single i =>
        have : i = info := by simpa [get_context, he, hc] using hg
        rw [this]

/-- Iterating `set_context` over an existing `(thread_id, cluster)` entry
succeeds, adds the exchanges' counts and token estimates, keeps the stored
context id, and preserves that the key has exactly one binding. -/
theorem applyUpdates_existing (xs : List Exchange) :
    ∀ (m : ContextMap) (t : String) (cluster : Option String) (info : ContextInfo),
    get_context m t cluster = some info →
    keyCount t m = 1 →
    (∀ mm, alookup t m = some (.multi mm) → keyCount (cluster.getD "") mm = 1) →
    ∃ m', applyUpdates t cluster m xs = some m' ∧
      get_context m' t cluster =
        some ⟨info.context_id, info.cluster, info.message_count + xs.length,
          info.estimated_tokens + sumTokens xs⟩ ∧
      keyCount t m' = 1 ∧
      (∀ mm, alookup t m' = some (.multi mm) → keyCount (cluster.getD "") mm = 1) := by
  induction xs with
  | nil =>
    intro m t cluster info hg hkc hic
    refine ⟨m, rfl, ?_, hkc, hic⟩
    rw [hg]
    cases info
    simp [sumTokens]
  | cons x rest ih =>
    intro m t cluster info hg hkc hic
    obtain ⟨m1, hset, hg1, hkc1, hic1, hsg1⟩ :=
      set_context_existing x.context_id x.message_text x.response_text hg
    have hkc1' : keyCount t m1 = 1 := hkc1 (le_of_eq hkc)
    have hic1' : ∀ mm, alookup t m1 = some (.multi mm) →
        keyCount (cluster.getD "") mm = 1 := by
      intro mm hmm
      by_cases hcl : optTruthy cluster
      · obtain ⟨mm0, he, -⟩ := (get_context_shape hg).1 hcl
        obtain ⟨mm1, hmm1, hcnt1⟩ := hic1 mm0 he
        rw [hmm] at hmm1
        obtain rfl : mm = mm1 := by simpa using hmm1
        exact hcnt1 (le_of_eq (hic mm0 he))
      · have he := (get_context_shape hg).2 (by simpa using hcl)
        obtain ⟨i', hi'⟩ := hsg1 info he
        rw [hmm] at hi'
        simp at hi'
    obtain ⟨m', happ, hg', hkc', hic'⟩ := ih m1 t cluster _ hg1 hkc1' hic1'
    refine ⟨m', ?_, ?_, hkc', hic'⟩
    · simp [applyUpdates, hset, happ]
    · rw [hg']
      simp [sumTokens_cons]
      constructor
      · omega
      · omega

/-- From an absent `(thread_id, cluster)` key, iterating `set_context` over
a non-empty list of exchanges creates the entry with the first exchange's
context id, message count equal to the number of exchanges, token estimate
equal to the accumulated per-exchange estimates, and exactly one binding
at every level. -/
theorem applyUpdates_fresh {m : ContextMap} {t : String} {cluster : Option String}
    (x : Exchange) (rest : List Exchange)
    (habs : keyAbsentOk m t cluster)
    (hkc0 : keyCount t m ≤ 1) :
    ∃ m', applyUpdates t cluster m (x :: rest) = some m' ∧
      get_context m' t cluster =
        some ⟨x.context_id, (if optTruthy cluster then cluster else none),
          (x :: rest).length, sumTokens (x :: rest)⟩ ∧
      keyCount t m' = 1 ∧
      (optTruthy cluster = true →
        ∃ mm, alookup t m' = some (.multi mm) ∧ keyCount (cluster.getD "") mm = 1) := by
  obtain ⟨m1, hset, hg1, hkc1, hic1, hsg1⟩ :=
    set_context_fresh x.context_id x.message_text x.response_text habs
  have hkc1' : keyCount t m1 = 1 := hkc1 hkc0
  have hic1' : ∀ mm, alookup t m1 = some (.multi mm) →
      keyCount (cluster.getD "") mm = 1 := by
    intro mm hmm
    by_cases hcl : optTruthy cluster
    · obtain ⟨mm', hmm', hcnt'⟩ := hic1 hcl
      rw [hmm] at hmm'
      obtain rfl : mm = mm' := by simpa using hmm'
      exact hcnt'
    · obtain ⟨i', hi'⟩ := hsg1 (by simpa using hcl)
      rw [hmm] at hi'
      simp at hi'
  obtain ⟨m', happ, hg', hkc', hic'⟩ := applyUpdates_existing rest m1 t cluster _ hg1 hkc1' hic1'
  refine ⟨m', ?_, ?_, hkc', ?_⟩
  · simp [applyUpdates, hset, happ]
  · rw [hg']
    simp [sumTokens_cons]
    omega
  · intro hcl
    obtain ⟨mm, hmm, -⟩ := (get_context_shape hg').1 hcl
    exact ⟨mm, hmm, hic' mm hmm⟩

theorem estimate_tokens_eq (t : String) : estimate_tokens t = t.length / 4 := by
  unfold estimate_tokens
  by_cases h : t.isEmpty
  · rw [if_pos h, (String.isEmpty_iff t).mp h]
    rfl
  · rw [if_neg h]

/-- Each exchange's text loses fewer than four characters per piece to the
integer division of `estimate_tokens`. -/
theorem exchange_length_bound (msg : String) (rsp : Option String) :
    msg.length + (match rsp with | some r => r.length | none => 0) ≤
      4 * exchange_tokens msg rsp + 6 := by
  have hmsg : msg.length ≤ 4 * (msg.length / 4) + 3 := by omega
  unfold exchange_tokens
  rw [estimate_tokens_eq]
  cases rsp with
  | none => simp [optTruthy]; omega
  | some r =>
    simp only [optTruthy]
    by_cases hr : r.isEmpty
    · have : r = "" := (String.isEmpty_iff r).mp hr
      subst this
      simp
      omega
    · simp [hr, estimate_tokens_eq]
      omega

/-- The accumulated token estimate under-counts the accumulated text length
by at most six characters per exchange. -/
theorem totalTextLength_bound (xs : List Exchange) :
    totalTextLength xs ≤ 4 * sumTokens xs + 6 * xs.length := by
  induction xs with
  | nil => simp [totalTextLength, sumTokens]
  | cons x rest ih =>
    have hx := exchange_length_bound x.message_text x.response_text
    have hcons : totalTextLength (x :: rest) =
        (x.message_text.length +
          (match x.response_text with | some r => r.length | none => 0)) +
        totalTextLength rest := by
      simp [totalTextLength]
    rw [hcons, sumTokens_cons]
    simp only [List.length_cons]
    omega

/-- An event the loop passes over without returning or breaking: blank,
malformed, or a decoded response with no error and no truthy final flag. -/
def nonTerminal : SSEEvent → Bool
  | .blank => true
  | .malformed => true
  | .rpc r =>
    r.error.isNone &&
      (match r.result with
       | none => true
       | some d => !d.final)

/-- An event that carries no JSON-RPC error field. -/
def noError : SSEEvent → Bool
  | .rpc r => r.error.isNone
  | _ => true

/-- A result body carrying no `contextId`. -/
def resNoCtx (d : EventResult) : Bool :=
  d.contextId.isNone

/-- An event that carries no `contextId`. -/
def noCtx : SSEEvent → Bool
  | .rpc r =>
    match r.result with
    | some d => resNoCtx d
    | none => true
  | _ => true

/-- A result body carrying no agent-role message with non-empty parts. -/
def resNoAgent (d : EventResult) : Bool :=
  match d.status with
  | some s =>
    match s.message with
    | some msg => !(msg.role == some "agent" && !msg.parts.isEmpty)
    | none => true
  | none => true

/-- An event that contributes no agent response text. -/
def noAgentMsg : SSEEvent → Bool
  | .rpc r =>
    match r.result with
    | some d => resNoAgent d
    | none => true
  | _ => true

/-- The state transformation of one non-terminal event. -/
def stepNT (st : ParseState) : SSEEvent → ParseState
  | .blank => st
  | .malformed => { st with event_count := st.event_count + 1 }
  | .rpc r =>
    let st1 := { st with event_count := st.event_count + 1 }
    match r.result with
    | none => st1
    | some d => apply_result st1 d

theorem parse_loop_nonterminal (thread_id cluster : Option String) (m : ContextMap)
    (st : ParseState) (e : SSEEvent) (rest : List SSEEvent)
    (h : nonTerminal e = true) :
    parse_loop thread_id cluster m st (e :: rest) =
      parse_loop thread_id cluster m (stepNT st e) rest := by
  cases e with
  | blank => simp [parse_loop, stepNT]
  | malformed => simp [parse_loop, stepNT]
  | rpc r =>
    obtain ⟨re, rr⟩ := r
    cases re with
    | some err => simp [nonTerminal] at h
    | none =>
      cases rr with
      | none => simp [parse_loop, stepNT]
      | some d =>
        have hf : d.final = false := by simpa [nonTerminal] using h
        simp [parse_loop, stepNT, hf]

theorem parse_loop_foldl (thread_id cluster : Option String) (m : ContextMap)
    (pre : List SSEEvent) :
    ∀ (st : ParseState) (rest : List SSEEvent),
    (∀ e ∈ pre, nonTerminal e = true) →
    parse_loop thread_id cluster m st (pre ++ rest) =
      parse_loop thread_id cluster m (pre.foldl stepNT st) rest := by
  induction pre with
  | nil => intro st rest _; rfl
  | cons e pre' ih =>
    intro st rest h
    have he : nonTerminal e = true := h e (List.mem_cons_self e pre')
    rw [List.cons_append, parse_loop_nonterminal _ _ _ _ _ _ he]
    exact ih _ rest (fun e' he' => h e' (List.mem_cons_of_mem _ he'))

theorem parse_loop_all_blank (thread_id cluster : Option String) (m : ContextMap)
    (events : List SSEEvent) :
    ∀ st : ParseState, (∀ e ∈ events, e = .blank) →
    parse_loop thread_id cluster m st events = (m, .inr st) := by
  induction events with
  | nil => intro st _; rfl
  | cons e rest ih =>
    intro st h
    have he := h e (List.mem_cons_self e rest)
    subst he
    rw [parse_loop]
    exact ih st (fun e' he' => h e' (List.mem_cons_of_mem _ he'))

theorem apply_ctx_context_id (st : ParseState) (d : EventResult) :
    (apply_ctx st d).context_id =
      match d.contextId with
      | some cid => some cid
      | none => st.context_id := by
  unfold apply_ctx
  cases d.contextId <;> rfl

theorem apply_ctx_agent_response (st : ParseState) (d : EventResult) :
    (apply_ctx st d).agent_response = st.agent_response := by
  unfold apply_ctx
  cases d.contextId <;> rfl

theorem apply_ctx_status (st : ParseState) (d : EventResult) :
    (apply_ctx st d).status = st.status := by
  unfold apply_ctx
  cases d.contextId <;> rfl

theorem apply_status_context_id (st : ParseState) (s : TaskStatus) :
    (apply_status st s).context_id = st.context_id := by
  unfold apply_status
  cases hm : s.message
  · rfl
  · rename_i msg
    by_cases hrole : (msg.role == some "agent") = true
    · simp only [hrole, if_true]
      cases msg.parts <;> rfl
    · simp [hrole]

theorem apply_status_status (st : ParseState) (s : TaskStatus) :
    (apply_status st s).status = s.state.getD st.status := by
  unfold apply_status
  cases hm : s.message
  · rfl
  · rename_i msg
    by_cases hrole : (msg.role == some "agent") = true
    · simp only [hrole, if_true]
      cases msg.parts <;> rfl
    · simp [hrole]

theorem apply_status_agent_response_of_noagent (st : ParseState) (s : TaskStatus)
    (h : (match s.message with
          | some msg => !(msg.role == some "agent" && !msg.parts.isEmpty)
          | none => true) = true) :
    (apply_status st s).agent_response = st.agent_response := by
  unfold apply_status
  cases hm : s.message
  · rfl
  · rename_i msg
    rw [hm] at h
    by_cases hrole : (msg.role == some "agent") = true
    · simp only [hrole, if_true]
      cases hp : msg.parts
      · rfl
      · simp [hrole, hp] at h
    · simp [hrole]

theorem apply_status_agent_response_of_agent (st : ParseState) (s : TaskStatus)
    {msg : StatusMessage} {p : TextPart} {prest : List TextPart}
    (hm : s.message = some msg) (hrole : msg.role = some "agent")
    (hp : msg.parts = p :: prest) :
    (apply_status st s).agent_response = some (p.text.getD "") := by
  unfold apply_status
  simp [hm, hrole, hp]

theorem apply_result_context_id (st : ParseState) (d : EventResult) :
    (apply_result st d).context_id =
      match d.contextId with
      | some cid => some cid
      | none => st.context_id := by
  unfold apply_result
  cases hs : d.status
  · exact apply_ctx_context_id st d
  · rw [apply_status_context_id, apply_ctx_context_id]

theorem apply_result_status (st : ParseState) (d : EventResult) :
    (apply_result st d).status =
      match d.status with
      | some s => s.state.getD st.status
      | none => st.status := by
  unfold apply_result
  cases hs : d.status
  · exact apply_ctx_status st d
  · rw [apply_status_status, apply_ctx_status]

theorem apply_result_agent_of_noagent (st : ParseState) (d : EventResult)
    (h : resNoAgent d = true) :
    (apply_result st d).agent_response = st.agent_response := by
  unfold apply_result
  cases hs : d.status
  · exact apply_ctx_agent_response st d
  · rename_i s
    rw [apply_status_agent_response_of_noagent, apply_ctx_agent_response]
    unfold resNoAgent at h
    rw [hs] at h
    exact h

theorem apply_result_ctx_of_noctx (st : ParseState) (d : EventResult)
    (h : resNoCtx d = true) :
    (apply_result st d).context_id = st.context_id := by
  rw [apply_result_context_id]
  unfold resNoCtx at h
  cases hc : d.contextId
  · rfl
  · rw [hc] at h
    simp at h

theorem parse_loop_final (thread_id cluster : Option String) (m : ContextMap)
    (st : ParseState) (r : JsonRpcResponse) (d : EventResult) (post : List SSEEvent)
    (hr : r.error = none) (hres : r.result = some d) (hfin : d.final = true) :
    parse_loop thread_id cluster m st (.rpc r :: post) =
      (m, .inr (apply_result { st with event_count := st.event_count + 1 } d)) := by
  obtain ⟨re, rr⟩ := r
  simp only at hr hres
  subst hr
  subst hres
  simp [parse_loop, hfin]

theorem parse_loop_error_generic (thread_id cluster : Option String) (m : ContextMap)
    (st : ParseState) (r : JsonRpcResponse) (err : RpcError) (post : List SSEEvent)
    (hr : r.error = some err) (htl : is_token_limit_error err = false) :
    parse_loop thread_id cluster m st (.rpc r :: post) =
      (m, .inl ⟨some (agent_error_response (err.message.getD "Unknown error")),
        "error", st.context_id, cluster⟩) := by
  obtain ⟨re, rr⟩ := r
  simp only at hr
  subst hr
  simp [parse_loop, htl]

theorem parse_loop_error_token (thread_id cluster : Option String) (m : ContextMap)
    (st : ParseState) (r : JsonRpcResponse) (err : RpcError) (post : List SSEEvent)
    (hr : r.error = some err) (htl : is_token_limit_error err = true) :
    parse_loop thread_id cluster m st (.rpc r :: post) =
      ((if optTruthy thread_id then clear_context m (thread_id.getD "") cluster else m),
        .inl ⟨some (token_limit_response (err.message.getD "Unknown error")),
          "token_limit", none, cluster⟩) := by
  obtain ⟨re, rr⟩ := r
  simp only at hr
  subst hr
  simp [parse_loop, htl]

/-- A run over error-free events always finishes the loop normally with the
original store; it moreover preserves the response candidate when no event
carries an agent message, and the captured context id when no event carries
a `contextId`. -/
theorem parse_loop_no_error (thread_id cluster : Option String) (m : ContextMap)
    (events : List SSEEvent) :
    ∀ st : ParseState, (∀ e ∈ events, noError e = true) →
    ∃ st', parse_loop thread_id cluster m st events = (m, .inr st') ∧
      ((∀ e ∈ events, noAgentMsg e = true) → st'.agent_response = st.agent_response) ∧
      ((∀ e ∈ events, noCtx e = true) → st'.context_id = st.context_id) := by
  induction events with
  | nil => intro st _; exact ⟨st, rfl, fun _ => rfl, fun _ => rfl⟩
  | cons e rest ih =>
    intro st h
    have hrest : ∀ e' ∈ rest, noError e' = true :=
      fun e' he' => h e' (List.mem_cons_of_mem _ he')
    cases e with
    | blank =>
      obtain ⟨st', heq, hag, hctx⟩ := ih st hrest
      rw [parse_loop]
      exact ⟨st', heq,
        fun ha => hag (fun e' he' => ha e' (List.mem_cons_of_mem _ he')),
        fun hcx => hctx (fun e' he' => hcx e' (List.mem_cons_of_mem _ he'))⟩
    | malformed =>
      obtain ⟨st', heq, hag, hctx⟩ := ih { st with event_count := st.event_count + 1 } hrest
      rw [parse_loop]
      exact ⟨st', heq,
        fun ha => hag (fun e' he' => ha e' (List.mem_cons_of_mem _ he')),
        fun hcx => hctx (fun e' he' => hcx e' (List.mem_cons_of_mem _ he'))⟩
    | rpc r =>
      have herr : r.error = none := by
        have := h _ (List.mem_cons_self _ rest)
        simpa [noError, Option.isNone_iff_eq_none] using this
      obtain ⟨re, rr⟩ := r
      simp only at herr
      subst herr
      cases hres : rr with
      | none =>
        obtain ⟨st', heq, hag, hctx⟩ := ih { st with event_count := st.event_count + 1 } hrest
        subst hres
        rw [parse_loop]
        exact ⟨st', heq,
          fun ha => hag (fun e' he' => ha e' (List.mem_cons_of_mem _ he')),
          fun hcx => hctx (fun e' he' => hcx e' (List.mem_cons_of_mem _ he'))⟩
      | some d =>
        subst hres
        have hagent : (∀ e' ∈ (SSEEvent.rpc ⟨none, some d⟩) :: rest, noAgentMsg e' = true) →
            (apply_result { st with event_count := st.event_count + 1 } d).agent_response
              = st.agent_response := by
          intro ha
          have := ha _ (List.mem_cons_self _ rest)
          simp only [noAgentMsg] at this
          rw [apply_result_agent_of_noagent _ _ this]
        have hctxp : (∀ e' ∈ (SSEEvent.rpc ⟨none, some d⟩) :: rest, noCtx e' = true) →
            (apply_result { st with event_count := st.event_count + 1 } d).context_id
              = st.context_id := by
          intro hcx
          have := hcx _ (List.mem_cons_self _ rest)
          simp only [noCtx] at this
          rw [apply_result_ctx_of_noctx _ _ this]
        cases hfin : d.final with
        | true =>
          refine ⟨apply_result { st with event_count := st.event_count + 1 } d, ?_, ?_, ?_⟩
          · simp [parse_loop, hfin]
          · exact hagent
          · exact hctxp
        | false =>
          obtain ⟨st', heq, hag, hctx⟩ :=
            ih (apply_result { st with event_count := st.event_count + 1 } d) hrest
          refine ⟨st', ?_, ?_, ?_⟩
          · simp [parse_loop, hfin, heq]
          · intro ha
            rw [hag (fun e' he' => ha e' (List.mem_cons_of_mem _ he'))]
            exact hagent ha
          · intro hcx
            rw [hctx (fun e' he' => hcx e' (List.mem_cons_of_mem _ he'))]
            exact hctxp hcx

/-- The outcome-relevant fields of the loop state: everything except the
event counter, which only feeds logging. -/
def stateCore (st : ParseState) : Option String × Option String × String :=
  (st.agent_response, st.context_id, st.status)

theorem stateCore_fields {st st' : ParseState} (h : stateCore st = stateCore st') :
    st.agent_response = st'.agent_response ∧ st.context_id = st'.context_id ∧
      st.status = st'.status :=
  ⟨congrArg Prod.fst h, congrArg (fun x => x.2.1) h, congrArg (fun x => x.2.2) h⟩

/-- Two loop results agree up to the event counter. -/
def loopRel (a b : ContextMap × (TaskOutcome ⊕ ParseState)) : Prop :=
  a.1 = b.1 ∧
  match a.2, b.2 with
  | .inl o1, .inl o2 => o1 = o2
  | .inr s1, .inr s2 => stateCore s1 = stateCore s2
  | _, _ => False

theorem loopRel_refl (a : ContextMap × (TaskOutcome ⊕ ParseState)) : loopRel a a := by
  refine ⟨rfl, ?_⟩
  rcases a with ⟨m, o | s⟩ <;> simp

theorem apply_result_agent (st : ParseState) (d : EventResult) :
    (apply_result st d).agent_response =
      match d.status with
      | some s =>
        (match s.message with
         | some msg =>
           if msg.role == some "agent" then
             (match msg.parts with
              | [] => st.agent_response
              | p :: _ => some (p.text.getD ""))
           else st.agent_response
         | none => st.agent_response)
      | none => st.agent_response := by
  unfold apply_result
  cases hs : d.status
  · simp [apply_ctx_agent_response]
  · rename_i s
    unfold apply_status
    cases hm : s.message
    · simp [hm, apply_ctx_agent_response]
    · rename_i msg
      by_cases hrole : (msg.role == some "agent") = true
      · cases hp : msg.parts
        · simp [hm, hrole, hp, apply_ctx_agent_response]
        · simp [hm, hrole, hp]
      · simp [hm, hrole, apply_ctx_agent_response]

theorem apply_result_core {st st' : ParseState} (d : EventResult)
    (h : stateCore st = stateCore st') :
    stateCore (apply_result st d) = stateCore (apply_result st' d) := by
  obtain ⟨h1, h2, h3⟩ := stateCore_fields h
  unfold stateCore
  rw [apply_result_agent, apply_result_agent, apply_result_context_id,
    apply_result_context_id, apply_result_status, apply_result_status, h1, h2, h3]

theorem parse_loop_core_congr (thread_id cluster : Option String) (m : ContextMap)
    (events : List SSEEvent) :
    ∀ st st' : ParseState, stateCore st = stateCore st' →
    loopRel (parse_loop thread_id cluster m st events)
      (parse_loop thread_id cluster m st' events) := by
  induction events with
  | nil =>
    intro st st' h
    exact ⟨rfl, h⟩
  | cons e rest ih =>
    intro st st' h
    cases e with
    | blank =>
      rw [parse_loop, parse_loop]
      exact ih st st' h
    | malformed =>
      rw [parse_loop, parse_loop]
      exact ih _ _ h
    | rpc r =>
      obtain ⟨re, rr⟩ := r
      cases re with
      | some err =>
        by_cases htl : is_token_limit_error err = true
        · rw [parse_loop_error_token _ _ _ _ _ err rest rfl htl,
            parse_loop_error_token _ _ _ _ _ err rest rfl htl]
          exact loopRel_refl _
        · have htl' : is_token_limit_error err = false := by simpa using htl
          rw [parse_loop_error_generic _ _ _ _ _ err rest rfl htl',
            parse_loop_error_generic _ _ _ _ _ err rest rfl htl']
          obtain ⟨-, h2, -⟩ := stateCore_fields h
          rw [h2]
          exact loopRel_refl _
      | none =>
        cases rr with
        | none =>
          rw [parse_loop, parse_loop]
          exact ih _ _ h
        | some d =>
          have hcore : stateCore { st with event_count := st.event_count + 1 } =
              stateCore { st' with event_count := st'.event_count + 1 } := h
          cases hfin : d.final with
          | true =>
            rw [parse_loop_final _ _ _ _ _ d rest rfl rfl hfin,
              parse_loop_final _ _ _ _ _ d rest rfl rfl hfin]
            exact ⟨rfl, apply_result_core d hcore⟩
          | false =>
            simp only [parse_loop, hfin, if_false]
            exact ih _ _ (apply_result_core d hcore)

/-- Inserting a blank or malformed event anywhere in the stream leaves the
loop result unchanged up to the event counter. -/
theorem parse_loop_skip (thread_id cluster : Option String) (m : ContextMap)
    (e : SSEEvent) (he : e = .blank ∨ e = .malformed) (pre : List SSEEvent) :
    ∀ (st : ParseState) (rest : List SSEEvent),
    loopRel (parse_loop thread_id cluster m st (pre ++ e :: rest))
      (parse_loop thread_id cluster m st (pre ++ rest)) := by
  induction pre with
  | nil =>
    intro st rest
    rcases he with he | he <;> subst he
    · rw [List.nil_append, List.nil_append, parse_loop]
      exact loopRel_refl _
    · rw [List.nil_append, List.nil_append, parse_loop]
      exact parse_loop_core_congr _ _ _ _ _ _ rfl
  | cons p pre' ih =>
    intro st rest
    cases p with
    | blank =>
      rw [List.cons_append, List.cons_append, parse_loop, parse_loop]
      exact ih st rest
    | malformed =>
      rw [List.cons_append, List.cons_append, parse_loop, parse_loop]
      exact ih _ rest
    | rpc r =>
      obtain ⟨re, rr⟩ := r
      cases re with
      | some err =>
        by_cases htl : is_token_limit_error err = true
        · rw [List.cons_append, List.cons_append,
            parse_loop_error_token _ _ _ _ _ err _ rfl htl,
            parse_loop_error_token _ _ _ _ _ err _ rfl htl]
          exact loopRel_refl _
        · have htl' : is_token_limit_error err = false := by simpa using htl
          rw [List.cons_append, List.cons_append,
            parse_loop_error_generic _ _ _ _ _ err _ rfl htl',
            parse_loop_error_generic _ _ _ _ _ err _ rfl htl']
          exact loopRel_refl _
      | none =>
        cases rr with
        | none =>
          rw [List.cons_append, List.cons_append, parse_loop, parse_loop]
          exact ih _ rest
        | some d =>
          cases hfin : d.final with
          | true =>
            rw [List.cons_append, List.cons_append,
              parse_loop_final _ _ _ _ _ d _ rfl rfl hfin,
              parse_loop_final _ _ _ _ _ d _ rfl rfl hfin]
            exact loopRel_refl _
          | false =>
            rw [List.cons_append, List.cons_append]
            simp only [parse_loop, hfin, if_false]
            exact ih _ rest

/-- Loop results that agree up to the event counter produce the same
`parse_stream` result. -/
theorem parse_stream_of_loopRel {m : ContextMap} {events1 events2 : List SSEEvent}
    {thread_id : Option String} {message_text : String} {cluster : Option String}
    (h : loopRel (parse_loop thread_id cluster m ⟨none, none, "unknown", 0⟩ events1)
      (parse_loop thread_id cluster m ⟨none, none, "unknown", 0⟩ events2)) :
    parse_stream m events1 thread_id message_text cluster =
      parse_stream m events2 thread_id message_text cluster := by
  unfold parse_stream
  rcases ha : parse_loop thread_id cluster m ⟨none, none, "unknown", 0⟩ events1 with ⟨m1, r1⟩
  rcases hb : parse_loop thread_id cluster m ⟨none, none, "unknown", 0⟩ events2 with ⟨m2, r2⟩
  rw [ha, hb] at h
  obtain ⟨hm, hmatch⟩ := h
  simp only at hm
  subst hm
  cases r1 with
  | inl o1 =>
    cases r2 with
    | inl o2 =>
      have : o1 = o2 := hmatch
      rw [this]
    | inr s2 => exact absurd hmatch (by simp [loopRel])
  | inr s1 =>
    cases r2 with
    | inl o2 => exact absurd hmatch (by simp [loopRel])
    | inr s2 =>
      have hcore : stateCore s1 = stateCore s2 := hmatch
      obtain ⟨h1, h2, h3⟩ := stateCore_fields hcore
      cases s1
      cases s2
      simp only at h1 h2 h3
      subst h1
      subst h2
      subst h3
      simp

/-- On a mode-consistent store, `set_context` never hits the exceptional
mode-mismatch path. -/
theorem set_context_some (m : ContextMap) (t cid msg : String) (rsp : Option String)
    (cluster : Option String) (hsm : storeModeOk m cluster = true) :
    ∃ m', set_context m t cid msg rsp cluster = some m' := by
  cases hg : get_context m t cluster with
  | some info =>
    obtain ⟨m', h1, -⟩ := set_context_existing cid msg rsp hg
    exact ⟨m', h1⟩
  | none =>
    obtain ⟨m', h1, -⟩ := set_context_fresh cid msg rsp (storeModeOk_absent hsm hg)
    exact ⟨m', h1⟩

/-- C9: for every stream in which zero events are processed — in particular
every stream whose events all have empty or whitespace-only payloads — the
outcome has `responseText = None` and status `"unknown"`, no context id is
recorded, and the store is untouched. -/
theorem C9_all_blank_unknown (m : ContextMap) (thread_id : Option String)
    (message_text : String) (cluster : Option String) (events : List SSEEvent)
    (h : ∀ e ∈ events, e = SSEEvent.blank) :
    parse_stream m events thread_id message_text cluster =
      some (m, ⟨none, "unknown", none, cluster⟩) := by
  unfold parse_stream
  rw [parse_loop_all_blank _ _ _ _ _ h]
  simp [optTruthy]

theorem C9_witness :
    parse_stream [] [SSEEvent.blank, SSEEvent.blank] (some "t") "hi" none =
      some ([], ⟨none, "unknown", none, none⟩) :=
  C9_all_blank_unknown [] (some "t") "hi" none [SSEEvent.blank, SSEEvent.blank] (by decide)

/-- C8: an event whose payload is empty/whitespace-only or fails to parse
as JSON is skipped without emitting a value and without aborting the
stream: deleting it from any position of the stream leaves the parse
result — outcome and store effect — unchanged, so malformed events
interleaved with a valid final event never disturb that event's outcome. -/
theorem C8_skip_events (m : ContextMap) (thread_id : Option String)
    (message_text : String) (cluster : Option String) (pre rest : List SSEEvent)
    (e : SSEEvent) (he : e = SSEEvent.blank ∨ e = SSEEvent.malformed) :
    parse_stream m (pre ++ e :: rest) thread_id message_text cluster =
      parse_stream m (pre ++ rest) thread_id message_text cluster :=
  parse_stream_of_loopRel (parse_loop_skip thread_id cluster m e he pre _ rest)

theorem C8_witness :
    parse_stream [] ([SSEEvent.blank] ++ SSEEvent.malformed ::
        [SSEEvent.rpc ⟨none, some ⟨some "c1", some ⟨some "completed",
          some ⟨some "agent", [⟨some "ok"⟩]⟩⟩, true⟩⟩]) none "q" none =
      parse_stream [] ([SSEEvent.blank] ++
        [SSEEvent.rpc ⟨none, some ⟨some "c1", some ⟨some "completed",
          some ⟨some "agent", [⟨some "ok"⟩]⟩⟩, true⟩⟩]) none "q" none :=
  C8_skip_events [] none "q" none [SSEEvent.blank] _ SSEEvent.malformed (Or.inr rfl)

/-- C3: when the loop reaches a decoded event whose object carries an
`error` field, the run terminates at that event.  If the error text does
not match the token-limit signature the outcome is status `"error"` with
the error message in the response text and the store untouched; if it does
match (e.g. it contains `"tokens per min"`), the status is `"token_limit"`,
the context id of the outcome is cleared, and the stored context for that
thread/target is removed. -/
theorem C3_error_event_terminates (m : ContextMap) (thread_id : Option String)
    (message_text : String) (cluster : Option String) (pre post : List SSEEvent)
    (r : JsonRpcResponse) (err : RpcError)
    (hpre : ∀ e ∈ pre, nonTerminal e = true) (hr : r.error = some err) :
    (is_token_limit_error err = false →
      parse_stream m (pre ++ .rpc r :: post) thread_id message_text cluster =
        some (m, ⟨some (agent_error_response (err.message.getD "Unknown error")), "error",
          (pre.foldl stepNT ⟨none, none, "unknown", 0⟩).context_id, cluster⟩)) ∧
    (is_token_limit_error err = true →
      parse_stream m (pre ++ .rpc r :: post) thread_id message_text cluster =
        some ((if optTruthy thread_id then clear_context m (thread_id.getD "") cluster
            else m),
          ⟨some (token_limit_response (err.message.getD "Unknown error")), "token_limit",
            none, cluster⟩) ∧
      (optTruthy thread_id = true →
        get_context (clear_context m (thread_id.getD "") cluster)
          (thread_id.getD "") cluster = none)) := by
  constructor
  · intro htl
    unfold parse_stream
    rw [parse_loop_foldl _ _ _ _ _ _ hpre,
      parse_loop_error_generic _ _ _ _ _ _ _ hr htl]
  · intro htl
    refine ⟨?_, fun _ => get_context_clear m (thread_id.getD "") cluster⟩
    unfold parse_stream
    rw [parse_loop_foldl _ _ _ _ _ _ hpre,
      parse_loop_error_token _ _ _ _ _ _ _ hr htl]

theorem C3_witness :
    parse_stream [] [SSEEvent.rpc ⟨some ⟨some "boom", none⟩, none⟩] (some "t") "q" none =
      some ([], ⟨some (agent_error_response "boom"), "error", none, none⟩) ∧
    parse_stream [("t", .single ⟨"old", none, 2, 7⟩)]
        [SSEEvent.rpc ⟨some ⟨some "tokens per min", none⟩, none⟩] (some "t") "q" none =
      some ([], ⟨some (token_limit_response "tokens per min"), "token_limit", none, none⟩) ∧
    get_context ([] : ContextMap) "t" none = none := by
  refine ⟨?_, ?_, rfl⟩
  · exact (C3_error_event_terminates [] (some "t") "q" none [] []
      ⟨some ⟨some "boom", none⟩, none⟩ ⟨some "boom", none⟩ (by simp) rfl).1 (by decide)
  · exact ((C3_error_event_terminates [("t", .single ⟨"old", none, 2, 7⟩)] (some "t") "q"
      none [] [] ⟨some ⟨some "tokens per min", none⟩, none⟩ ⟨some "tokens per min", none⟩
      (by simp) rfl).2 (by decide)).1

theorem parse_stream_inl {m m0 : ContextMap} {events : List SSEEvent}
    {thread_id : Option String} (message_text : String) {cluster : Option String}
    {out : TaskOutcome}
    (hloop : parse_loop thread_id cluster m ⟨none, none, "unknown", 0⟩ events =
      (m0, .inl out)) :
    parse_stream m events thread_id message_text cluster = some (m0, out) := by
  unfold parse_stream
  rw [hloop]

theorem parse_stream_inr_false {m m0 : ContextMap} {events : List SSEEvent}
    {thread_id : Option String} (message_text : String) {cluster : Option String}
    {st : ParseState}
    (hloop : parse_loop thread_id cluster m ⟨none, none, "unknown", 0⟩ events =
      (m0, .inr st))
    (hcond : (optTruthy thread_id && optTruthy st.context_id) = false) :
    parse_stream m events thread_id message_text cluster =
      some (m0, ⟨st.agent_response, st.status, st.context_id, cluster⟩) := by
  unfold parse_stream
  rw [hloop]
  simp [hcond]

theorem parse_stream_inr_true {m m0 m'' : ContextMap} {events : List SSEEvent}
    {thread_id : Option String} (message_text : String) {cluster : Option String}
    {st : ParseState}
    (hloop : parse_loop thread_id cluster m ⟨none, none, "unknown", 0⟩ events =
      (m0, .inr st))
    (hcond : (optTruthy thread_id && optTruthy st.context_id) = true)
    (hset : set_context m0 (thread_id.getD "") (st.context_id.getD "") message_text
      st.agent_response cluster = some m'') :
    parse_stream m events thread_id message_text cluster =
      some (m'', ⟨st.agent_response, st.status, st.context_id, cluster⟩) := by
  unfold parse_stream
  rw [hloop]
  simp [hcond, hset]

/-- On a mode-consistent store, a normally finished run assembles to some
result whatever the captured context id. -/
theorem parse_stream_inr_some {m m0 : ContextMap} {events : List SSEEvent}
    {thread_id : Option String} (message_text : String) {cluster : Option String}
    {st : ParseState}
    (hloop : parse_loop thread_id cluster m ⟨none, none, "unknown", 0⟩ events =
      (m0, .inr st))
    (hsm : storeModeOk m0 cluster = true) :
    ∃ m', parse_stream m events thread_id message_text cluster =
      some (m', ⟨st.agent_response, st.status, st.context_id, cluster⟩) := by
  cases hcond : (optTruthy thread_id && optTruthy st.context_id) with
  | false => exact ⟨m0, parse_stream_inr_false message_text hloop hcond⟩
  | true =>
    obtain ⟨m'', hset⟩ := set_context_some m0 (thread_id.getD "")
      (st.context_id.getD "") message_text st.agent_response cluster hsm
    exact ⟨m'', parse_stream_inr_true message_text hloop hcond hset⟩

/-- The final event shape of a successful exchange: no error, a truthy
`final` flag, `status.state = "completed"`, and an agent-role message whose
first part carries the text `txt`. -/
def finalCompletedAgent (r : JsonRpcResponse) (txt : String) : Prop :=
  r.error = none ∧
  ∃ d s msg p prest,
    r.result = some d ∧ d.final = true ∧ d.status = some s ∧
    s.state = some "completed" ∧ s.message = some msg ∧
    msg.role = some "agent" ∧ msg.parts = p :: prest ∧ p.text = some txt

/-- C1 (amended to require that no event before the final one carries an
error field, since a remote-reported error terminates the run first): a
stream ending in the unique final event, which carries
`status.state = "completed"` and an agent-role message, parses to that
message's first text part and status `"completed"` — any agent message
seen earlier in the stream is overwritten (last agent message wins) — and
a stream none of whose events carries an agent-role message with parts
(in particular one carrying only user-role echoes) yields no response
text at all. -/
theorem C1_parser_final_completed :
    (∀ (m : ContextMap) (thread_id : Option String) (message_text : String)
       (cluster : Option String) (pre post : List SSEEvent) (r : JsonRpcResponse)
       (txt : String),
      storeModeOk m cluster = true →
      (∀ e ∈ pre, nonTerminal e = true) →
      finalCompletedAgent r txt →
      ∃ m' cid, parse_stream m (pre ++ .rpc r :: post) thread_id message_text cluster =
        some (m', ⟨some txt, "completed", cid, cluster⟩)) ∧
    (∀ (m : ContextMap) (thread_id : Option String) (message_text : String)
       (cluster : Option String) (events : List SSEEvent)
       (m' : ContextMap) (out : TaskOutcome),
      (∀ e ∈ events, noError e = true ∧ noAgentMsg e = true) →
      parse_stream m events thread_id message_text cluster = some (m', out) →
      out.response = none) := by
  constructor
  · intro m thread_id message_text cluster pre post r txt hsm hpre hfca
    obtain ⟨herr, d, s, msgg, p, prest, hres, hfin, hst, hstate, hmsg, hrole, hparts, htxt⟩ :=
      hfca
    have hloop : parse_loop thread_id cluster m ⟨none, none, "unknown", 0⟩
        (pre ++ .rpc r :: post) =
        (m, .inr (apply_result
          { List.foldl stepNT ⟨none, none, "unknown", 0⟩ pre with
            event_count :=
              (List.foldl stepNT ⟨none, none, "unknown", 0⟩ pre).event_count + 1 } d)) := by
      rw [parse_loop_foldl _ _ _ _ _ _ hpre,
        parse_loop_final _ _ _ _ _ _ _ herr hres hfin]
    have hag : (apply_result
        { List.foldl stepNT ⟨none, none, "unknown", 0⟩ pre with
          event_count :=
            (List.foldl stepNT ⟨none, none, "unknown", 0⟩ pre).event_count + 1 }
        d).agent_response = some txt := by
      unfold apply_result
      rw [hst, apply_status_agent_response_of_agent _ _ hmsg hrole hparts, htxt]
      rfl
    have hstat : (apply_result
        { List.foldl stepNT ⟨none, none, "unknown", 0⟩ pre with
          event_count :=
            (List.foldl stepNT ⟨none, none, "unknown", 0⟩ pre).event_count + 1 }
        d).status = "completed" := by
      rw [apply_result_status, hst]
      simp [hstate]
    obtain ⟨m', hps⟩ := parse_stream_inr_some message_text hloop hsm
    rw [hag, hstat] at hps
    exact ⟨m', _, hps⟩
  · intro m thread_id message_text cluster events m' out h heq
    obtain ⟨st', heq', hag, -⟩ :=
      parse_loop_no_error thread_id cluster m events ⟨none, none, "unknown", 0⟩
        (fun e he => (h e he).1)
    have hag' : st'.agent_response = none := hag (fun e he => (h e he).2)
    cases hcond : (optTruthy thread_id && optTruthy st'.context_id) with
    | false =>
      have hps := parse_stream_inr_false message_text heq' hcond
      rw [heq] at hps
      obtain ⟨-, hout⟩ : m' = m ∧
          out = (⟨st'.agent_response, st'.status, st'.context_id, cluster⟩ : TaskOutcome) := by
        have := Option.some.inj hps
        exact ⟨congrArg Prod.fst this, congrArg Prod.snd this⟩
      rw [hout, hag']
    | true =>
      cases hset : set_context m (thread_id.getD "") (st'.context_id.getD "")
          message_text st'.agent_response cluster with
      | none =>
        have : parse_stream m events thread_id message_text cluster = none := by
          unfold parse_stream
          rw [heq']
          simp [hcond, hset]
        rw [heq] at this
        simp at this
      | some m'' =>
        have hps := parse_stream_inr_true message_text heq' hcond hset
        rw [heq] at hps
        obtain ⟨-, hout⟩ : m' = m'' ∧
            out = (⟨st'.agent_response, st'.status, st'.context_id, cluster⟩ : TaskOutcome) := by
          have := Option.some.inj hps
          exact ⟨congrArg Prod.fst this, congrArg Prod.snd this⟩
        rw [hout, hag']

theorem C1_counterexample :
    ∃ res, parse_stream [] [SSEEvent.rpc ⟨some ⟨some "boom", none⟩, none⟩,
        SSEEvent.rpc ⟨none, some ⟨some "c1", some ⟨some "completed",
          some ⟨some "agent", [⟨some "ok"⟩]⟩⟩, true⟩⟩] none "q" none = some res ∧
      res.2.status = "error" ∧ res.2.status ≠ "completed" ∧
      res.2.response ≠ some "ok" := by
  refine ⟨([], ⟨some (agent_error_response "boom"), "error", none, none⟩),
    ?_, rfl, by decide, by decide⟩
  rfl

theorem C1_witness :
    ∃ m' cid, parse_stream [] ([] ++ SSEEvent.rpc ⟨none, some ⟨some "c1",
        some ⟨some "completed", some ⟨some "agent", [⟨some "ok"⟩]⟩⟩, true⟩⟩ :: [])
        none "q" none = some (m', ⟨some "ok", "completed", cid, none⟩) := by
  refine C1_parser_final_completed.1 [] none "q" none [] []
    ⟨none, some ⟨some "c1", some ⟨some "completed",
      some ⟨some "agent", [⟨some "ok"⟩]⟩⟩, true⟩⟩ "ok" rfl (by simp) ?_
  exact ⟨rfl, _, _, _, _, _, rfl, rfl, rfl, rfl, rfl, rfl, rfl, rfl⟩

theorem list_find?_first {α : Type} (p : α → Bool) (pre : List α) (c : α) (post : List α)
    (hpre : ∀ x ∈ pre, p x = false) (hc : p c = true) :
    (pre ++ c :: post).find? p = some c := by
  induction pre with
  | nil => simp [List.find?, hc]
  | cons a pre' ih =>
    have ha := hpre a (List.mem_cons_self a pre')
    rw [List.cons_append, List.find?]
    rw [ha]
    exact ih (fun x hx => hpre x (List.mem_cons_of_mem _ hx))

theorem list_find?_none {α : Type} (p : α → Bool) (l : List α)
    (h : ∀ x ∈ l, p x = false) : l.find? p = none := by
  induction l with
  | nil => rfl
  | cons a l' ih =>
    have ha := h a (List.mem_cons_self a l')
    rw [List.find?, ha]
    exact ih (fun x hx => h x (List.mem_cons_of_mem _ hx))

theorem list_findSome?_first {α β : Type} (f : α → Option β) (pre : List α) (c : α)
    (post : List α) (b : β) (hpre : ∀ x ∈ pre, f x = none) (hc : f c = some b) :
    (pre ++ c :: post).findSome? f = some b := by
  induction pre with
  | nil => simp [List.findSome?, hc]
  | cons a pre' ih =>
    have ha := hpre a (List.mem_cons_self a pre')
    rw [List.cons_append, List.findSome?, ha]
    exact ih (fun x hx => hpre x (List.mem_cons_of_mem _ hx))

theorem list_findSome?_none {α β : Type} (f : α → Option β) (l : List α)
    (h : ∀ x ∈ l, f x = none) : l.findSome? f = none := by
  induction l with
  | nil => rfl
  | cons a l' ih =>
    have ha := h a (List.mem_cons_self a l')
    rw [List.findSome?, ha]
    exact ih (fun x hx => h x (List.mem_cons_of_mem _ hx))

/-- C2 (amended: the first match in cluster-registry order wins, not the
first match in left-to-right scan order of the message): detection depends
only on the lowercased message (case-insensitive); the first cluster in
list order whose name matches as a whole word is returned regardless of
aliases; when no name matches anywhere, the first cluster in list order
with a whole-word alias match is returned; and when neither a name nor an
alias matches, the result is null. -/
theorem C2_detection_order :
    (∀ (msg1 msg2 : String) (clusters : List ClusterConfig),
      lowerChars msg1 = lowerChars msg2 →
      detect_cluster_from_message msg1 clusters =
        detect_cluster_from_message msg2 clusters) ∧
    (∀ (msg : String) (pre post : List ClusterConfig) (c : ClusterConfig),
      (∀ c' ∈ pre, nameMatches (lowerChars msg) c' = false) →
      nameMatches (lowerChars msg) c = true →
      detect_cluster_from_message msg (pre ++ c :: post) = some c.name) ∧
    (∀ (msg : String) (pre post : List ClusterConfig) (c : ClusterConfig),
      (∀ c' ∈ pre ++ c :: post, nameMatches (lowerChars msg) c' = false) →
      (∀ c' ∈ pre, aliasMatches (lowerChars msg) c' = false) →
      aliasMatches (lowerChars msg) c = true →
      detect_cluster_from_message msg (pre ++ c :: post) = some c.name) ∧
    (∀ (msg : String) (clusters : List ClusterConfig),
      (∀ c' ∈ clusters, nameMatches (lowerChars msg) c' = false) →
      (∀ c' ∈ clusters, aliasMatches (lowerChars msg) c' = false) →
      detect_cluster_from_message msg clusters = none) := by
  refine ⟨?_, ?_, ?_, ?_⟩
  · intro msg1 msg2 clusters h
    unfold detect_cluster_from_message
    rw [h]
  · intro msg pre post c hpre hc
    simp only [detect_cluster_from_message]
    rw [list_find?_first (fun c' => nameMatches (lowerChars msg) c') pre c post hpre hc]
  · intro msg pre post c hnames hpre hc
    simp only [detect_cluster_from_message]
    rw [list_find?_none (fun c' => nameMatches (lowerChars msg) c') _ hnames,
      list_findSome?_first
        (fun c' => if aliasMatches (lowerChars msg) c' then some c'.name else none)
        pre c post c.name
        (fun x hx => by simp [hpre x hx])
        (by simp [hc])]
  · intro msg clusters hnames haliases
    simp only [detect_cluster_from_message]
    rw [list_find?_none (fun c' => nameMatches (lowerChars msg) c') _ hnames,
      list_findSome?_none
        (fun c' => if aliasMatches (lowerChars msg) c' then some c'.name else none)
        _ (fun x hx => by simp [haliases x hx])]

theorem C2_counterexample :
    detect_cluster_from_message "dev before test"
      [⟨"test", "", []⟩, ⟨"dev", "", []⟩] = some "test" ∧
    detect_cluster_spec_leftmost "dev before test"
      [⟨"test", "", []⟩, ⟨"dev", "", []⟩] = some "dev" ∧
    some "test" ≠ some "dev" := by
  refine ⟨by decide, by decide, by decide⟩

theorem C2_witness :
    detect_cluster_from_message "show PRODUCTION deployments"
      ([] ++ (⟨"prod", "", ["production"]⟩ : ClusterConfig) :: []) = some "prod" ∧
    detect_cluster_from_message "latest version" [⟨"test", "", ["testing"]⟩] = none := by
  constructor
  · exact C2_detection_order.2.2.1 "show PRODUCTION deployments" [] []
      ⟨"prod", "", ["production"]⟩ (by decide) (by decide) (by decide)
  · exact C2_detection_order.2.2.2 "latest version" [⟨"test", "", ["testing"]⟩]
      (by decide) (by decide)

/-- C10: a store update on an existing `(thread_id, cluster)` entry
increments `message_count`, adds the exchange's token estimate, and leaves
the stored context id (and cluster field) unchanged, even when the update
supplies a different context id — the id captured at creation persists. -/
theorem C10_context_id_persists (m : ContextMap) (t : String) (cluster : Option String)
    (info : ContextInfo) (new_cid msg : String) (rsp : Option String)
    (hg : get_context m t cluster = some info) :
    ∃ m', set_context m t new_cid msg rsp cluster = some m' ∧
      get_context m' t cluster = some ⟨info.context_id, info.cluster,
        info.message_count + 1, info.estimated_tokens + exchange_tokens msg rsp⟩ := by
  obtain ⟨m', h1, h2, -, -, -⟩ := set_context_existing new_cid msg rsp hg
  exact ⟨m', h1, h2⟩

theorem C10_witness :
    ∃ m', set_context [("t", .single ⟨"old", none, 2, 7⟩)] "t" "new" "msg4"
        (some "resp8888") none = some m' ∧
      get_context m' "t" none = some ⟨"old", none, 3, 10⟩ :=
  C10_context_id_persists [("t", .single ⟨"old", none, 2, 7⟩)] "t" none
    ⟨"old", none, 2, 7⟩ "new" "msg4" (some "resp8888") rfl

/-- C4: from an absent `(thread_id, cluster)` key in a mode-consistent
store whose thread key has at most one binding, iterating the store update
over `N ≥ 1` exchanges yields exactly one stored entry (one binding for the
thread and, in multi-cluster mode, one for the cluster inside it) whose
`message_count` is `N` and whose `estimated_tokens` is the sum over all `N`
calls of `estimate(requestText) + estimate(responseText or "")`; the first
call creates the entry with message count `1` and the first context id. -/
theorem C4_update_counts (m : ContextMap) (t : String) (cluster : Option String)
    (x : Exchange) (rest : List Exchange)
    (hsm : storeModeOk m cluster = true)
    (hg : get_context m t cluster = none)
    (hkc : keyCount t m ≤ 1) :
    ∃ m', applyUpdates t cluster m (x :: rest) = some m' ∧
      get_context m' t cluster = some ⟨x.context_id,
        (if optTruthy cluster then cluster else none),
        (x :: rest).length, sumTokens (x :: rest)⟩ ∧
      keyCount t m' = 1 ∧
      (optTruthy cluster = true →
        ∃ mm, alookup t m' = some (.multi mm) ∧ keyCount (cluster.getD "") mm = 1) :=
  applyUpdates_fresh x rest (storeModeOk_absent hsm hg) hkc

theorem C4_witness :
    ∃ m', applyUpdates "t" (some "prod") []
        [⟨"c1", "hello123", some "resp"⟩, ⟨"c2", "hi", none⟩] = some m' ∧
      get_context m' "t" (some "prod") = some ⟨"c1", some "prod", 2, 3⟩ ∧
      keyCount "t" m' = 1 := by
  obtain ⟨m', h1, h2, h3, -⟩ := C4_update_counts [] "t" (some "prod")
    ⟨"c1", "hello123", some "resp"⟩ [⟨"c2", "hi", none⟩] rfl rfl (by decide)
  exact ⟨m', h1, h2, h3⟩

/-- C5 (amended: because each text piece is floor-divided by four, the
length bound needs a slack of up to six characters per update): the budget
check on an absent entry returns `(false, none)`; and after accumulating
exchanges whose total text length exceeds
`4 × maxTokens + 6 × (number of updates)`, it reports over budget. -/
theorem C5_check_budget :
    (∀ (m : ContextMap) (max_tokens : Nat) (t : String) (cluster : Option String),
      get_context m t cluster = none →
      check_token_limit m max_tokens t cluster = (false, none)) ∧
    (∀ (m : ContextMap) (max_tokens : Nat) (t : String) (cluster : Option String)
       (x : Exchange) (rest : List Exchange),
      storeModeOk m cluster = true →
      get_context m t cluster = none →
      keyCount t m ≤ 1 →
      totalTextLength (x :: rest) > 4 * max_tokens + 6 * (x :: rest).length →
      ∃ m', applyUpdates t cluster m (x :: rest) = some m' ∧
        (check_token_limit m' max_tokens t cluster).1 = true) := by
  constructor
  · intro m mt t cl hg
    unfold check_token_limit
    rw [hg]
  · intro m mt t cl x rest hsm hg hkc hlen
    obtain ⟨m', h1, h2, -, -⟩ := applyUpdates_fresh x rest (storeModeOk_absent hsm hg) hkc
    refine ⟨m', h1, ?_⟩
    unfold check_token_limit
    rw [h2]
    simp only [decide_eq_true_eq]
    have hb := totalTextLength_bound (x :: rest)
    omega

theorem C5_counterexample :
    set_context [] "t" "c1" "abcdef" none none =
      some [("t", .single ⟨"c1", none, 1, 1⟩)] ∧
    "abcdef".length > 4 * 1 ∧
    check_token_limit [("t", .single ⟨"c1", none, 1, 1⟩)] 1 "t" none = (false, some 1) := by
  refine ⟨rfl, by decide, rfl⟩

theorem C5_witness :
    check_token_limit [] 5 "t" none = (false, none) ∧
    ∃ m', applyUpdates "t" none [] [⟨"c1", "aaaaaaaaaaaa", none⟩] = some m' ∧
      (check_token_limit m' 1 "t" none).1 = true := by
  constructor
  · exact C5_check_budget.1 [] 5 "t" none rfl
  · exact C5_check_budget.2 [] 1 "t" none ⟨"c1", "aaaaaaaaaaaa", none⟩ [] rfl rfl
      (by decide) (by decide)

/-- C6: when the budget check for the addressed target of a truthy thread
reports over-limit, `send_message` returns the context-overflow outcome
(status `"context_overflow"`, context id `None`) without contacting the
remote (the flag is `false`), and the store is returned unchanged. -/
theorem C6_overflow_short_circuit (cfg : BotConfig) (m : ContextMap)
    (remote : RemoteResult) (text : String) (thread_id : Option String)
    (cluster : Option String) (tokens : Nat)
    (ht : optTruthy thread_id = true)
    (hover : check_token_limit m cfg.max_context_tokens (thread_id.getD "") cluster =
      (true, some tokens)) :
    send_message cfg m remote text thread_id cluster =
      (some (m, ⟨some (context_overflow_response tokens cfg.max_context_tokens),
        "context_overflow", none, cluster⟩), false) := by
  unfold send_message
  simp [ht, hover]

theorem C6_witness :
    send_message ⟨false, [], none, "ep", 10, 300⟩ [("t", .single ⟨"c", none, 3, 50⟩)]
      (.ok []) "hello" (some "t") none =
      (some ([("t", .single ⟨"c", none, 3, 50⟩)],
        ⟨some (context_overflow_response 50 10), "context_overflow", none, none⟩), false) :=
  C6_overflow_short_circuit ⟨false, [], none, "ep", 10, 300⟩
    [("t", .single ⟨"c", none, 3, 50⟩)] (.ok []) "hello" (some "t") none 50 rfl rfl

/-- C7 (amended: success is not required for the store update — the store
is updated exactly when a thread id is present and a truthy context id was
captured by a run that did not terminate in the error early-return): a run
over events carrying no error and no `contextId` leaves the store
unchanged whatever its final status; a run ending in a final event that
carries a truthy `contextId` updates the `(thread_id, cluster)` entry —
incrementing its message count or creating it with count one — even when
that final event's status is `"failed"` or no status at all; and a run
terminated by a generic remote-reported error leaves the store unchanged
with outcome status `"error"`. -/
theorem C7_store_update_exactly_when :
    (∀ (m : ContextMap) (thread_id : Option String) (message_text : String)
       (cluster : Option String) (events : List SSEEvent),
      (∀ e ∈ events, noError e = true ∧ noCtx e = true) →
      ∃ out, parse_stream m events thread_id message_text cluster = some (m, out)) ∧
    (∀ (m : ContextMap) (thread_id : Option String) (message_text : String)
       (cluster : Option String) (pre post : List SSEEvent) (r : JsonRpcResponse)
       (d : EventResult) (cid : String),
      storeModeOk m cluster = true →
      (∀ e ∈ pre, nonTerminal e = true) →
      r.error = none → r.result = some d → d.final = true →
      d.contextId = some cid → optTruthy (some cid) = true →
      optTruthy thread_id = true →
      ∃ m' out info,
        parse_stream m (pre ++ .rpc r :: post) thread_id message_text cluster =
          some (m', out) ∧
        get_context m' (thread_id.getD "") cluster = some info ∧
        info.message_count =
          (match get_context m (thread_id.getD "") cluster with
           | some i => i.message_count + 1
           | none => 1)) ∧
    (∀ (m : ContextMap) (thread_id : Option String) (message_text : String)
       (cluster : Option String) (pre post : List SSEEvent) (r : JsonRpcResponse)
       (err : RpcError),
      (∀ e ∈ pre, nonTerminal e = true) →
      r.error = some err → is_token_limit_error err = false →
      ∃ out, parse_stream m (pre ++ .rpc r :: post) thread_id message_text cluster =
        some (m, out) ∧ out.status = "error") := by
  refine ⟨?_, ?_, ?_⟩
  · intro m thread_id message_text cluster events h
    obtain ⟨st', heq', -, hctx⟩ :=
      parse_loop_no_error thread_id cluster m events ⟨none, none, "unknown", 0⟩
        (fun e he => (h e he).1)
    have hctx' : st'.context_id = none := hctx (fun e he => (h e he).2)
    refine ⟨⟨st'.agent_response, st'.status, st'.context_id, cluster⟩, ?_⟩
    refine parse_stream_inr_false message_text heq' ?_
    rw [hctx']
    simp [optTruthy]
  · intro m thread_id message_text cluster pre post r d cid hsm hpre herr hres hfin hcid
      htruthy ht
    have hloop : parse_loop thread_id cluster m ⟨none, none, "unknown", 0⟩
        (pre ++ .rpc r :: post) =
        (m, .inr (apply_result
          { List.foldl stepNT ⟨none, none, "unknown", 0⟩ pre with
            event_count :=
              (List.foldl stepNT ⟨none, none, "unknown", 0⟩ pre).event_count + 1 } d)) := by
      rw [parse_loop_foldl _ _ _ _ _ _ hpre,
        parse_loop_final _ _ _ _ _ _ _ herr hres hfin]
    have hctx : (apply_result
        { List.foldl stepNT ⟨none, none, "unknown", 0⟩ pre with
          event_count :=
            (List.foldl stepNT ⟨none, none, "unknown", 0⟩ pre).event_count + 1 }
        d).context_id = some cid := by
      rw [apply_result_context_id, hcid]
    have hcond : (optTruthy thread_id && optTruthy (apply_result
        { List.foldl stepNT ⟨none, none, "unknown", 0⟩ pre with
          event_count :=
            (List.foldl stepNT ⟨none, none, "unknown", 0⟩ pre).event_count + 1 }
        d).context_id) = true := by
      rw [hctx, ht, htruthy]
      rfl
    cases hgc : get_context m (thread_id.getD "") cluster with
    | some info =>
      obtain ⟨m'', hset, hg'', -, -, -⟩ := set_context_existing
        ((apply_result
          { List.foldl stepNT ⟨none, none, "unknown", 0⟩ pre with
            event_count :=
              (List.foldl stepNT ⟨none, none, "unknown", 0⟩ pre).event_count + 1 }
          d).context_id.getD "") message_text
        ((apply_result
          { List.foldl stepNT ⟨none, none, "unknown", 0⟩ pre with
            event_count :=
              (List.foldl stepNT ⟨none, none, "unknown", 0⟩ pre).event_count + 1 }
          d).agent_response) hgc
      refine ⟨m'', _, _, parse_stream_inr_true message_text hloop hcond hset, hg'', rfl⟩
    | none =>
      obtain ⟨m'', hset, hg'', -, -, -⟩ := set_context_fresh
        ((apply_result
          { List.foldl stepNT ⟨none, none, "unknown", 0⟩ pre with
            event_count :=
              (List.foldl stepNT ⟨none, none, "unknown", 0⟩ pre).event_count + 1 }
          d).context_id.getD "") message_text
        ((apply_result
          { List.foldl stepNT ⟨none, none, "unknown", 0⟩ pre with
            event_count :=
              (List.foldl stepNT ⟨none, none, "unknown", 0⟩ pre).event_count + 1 }
          d).agent_response) (storeModeOk_absent hsm hgc)
      refine ⟨m'', _, _, parse_stream_inr_true message_text hloop hcond hset, hg'', rfl⟩
  · intro m thread_id message_text cluster pre post r err hpre hr htl
    refine ⟨⟨some (agent_error_response (err.message.getD "Unknown error")), "error",
      (pre.foldl stepNT ⟨none, none, "unknown", 0⟩).context_id, cluster⟩, ?_, rfl⟩
    refine parse_stream_inl message_text ?_
    rw [parse_loop_foldl _ _ _ _ _ _ hpre,
      parse_loop_error_generic _ _ _ _ _ _ _ hr htl]

theorem C7_counterexample :
    ∃ m' out, parse_stream [] [SSEEvent.rpc ⟨none, some ⟨some "c1",
        some ⟨some "failed", none⟩, true⟩⟩] (some "t") "hi" (some "prod") =
        some (m', out) ∧
      out.status = "failed" ∧
      get_context [] "t" (some "prod") = none ∧
      get_context m' "t" (some "prod") = some ⟨"c1", some "prod", 1, 0⟩ := by
  refine ⟨[("t", .multi [("prod", ⟨"c1", some "prod", 1, 0⟩)])],
    ⟨none, "failed", some "c1", some "prod"⟩, ?_, rfl, rfl, rfl⟩
  rfl

theorem C7_witness :
    ∃ m' out info, parse_stream [] ([] ++ SSEEvent.rpc ⟨none, some ⟨some "c9",
        some ⟨some "failed", none⟩, true⟩⟩ :: []) (some "t") "hello" (some "dev") =
        some (m', out) ∧
      get_context m' "t" (some "dev") = some info ∧
      info.message_count = 1 := by
  have h := C7_store_update_exactly_when.2.1 [] (some "t") "hello" (some "dev") [] []
    ⟨none, some ⟨some "c9", some ⟨some "failed", none⟩, true⟩⟩
    ⟨some "c9", some ⟨some "failed", none⟩, true⟩ "c9" rfl (by simp) rfl rfl rfl rfl
    rfl rfl
  exact h
